import Mathlib

/-!
Verification of the hex-grid spatial / procedural-terrain subsystem
(`src/world/hex_world.c`) against its natural-language specification.

Embedding conventions:
* C `float` arithmetic is modelled as exact arithmetic over `ℚ`; float
  literals are taken at their written decimal value.
* `sqrtf(a) <= t` / `sqrtf(a) > t` (with `a = x*x + y*y ≥ 0`) are embedded
  as the exactly equivalent comparisons on squares (`sqrt_le`, `sqrt_gt`).
* 32-bit unsigned arithmetic of the noise hash is modelled on `ℕ` with
  explicit `% 2^32`; `lrintf` is round-to-nearest, ties-to-even (`lrintQ`).
* C pointers that may be NULL are modelled with `Option`; the `tiles`
  pointer being NULL is modelled by the tile list being `[]` (in every
  reachable state `tiles != NULL` iff at least one tile was allocated).
* `size_t` results with the `SIZE_MAX` "absent" sentinel are `Option ℕ`.
* Allocation success of `calloc` is an explicit oracle argument `allocOk`.
-/

namespace Bee

/-- Two's-complement truncation to `int16_t`, as in `(int16_t)q`. -/
def wrap16 (z : ℤ) : ℤ := (z + 32768) % 65536 - 32768

/-- Truncation to `uint16_t`, as in `(uint16_t)q_span`. -/
def wrapU16 (z : ℤ) : ℕ := (z % 65536).toNat

/-- Conversion of a C `int` to `uint32_t` (two's complement reduction). -/
def u32 (z : ℤ) : ℕ := (z % 4294967296).toNat

/-- Model of C `lrintf`: round to nearest integer, ties to even. -/
def lrintQ (x : ℚ) : ℤ :=
  let f := ⌊x⌋
  let frac := x - (f : ℚ)
  if frac < 1/2 then f
  else if 1/2 < frac then f + 1
  else if f % 2 = 0 then f else f + 1

/-- Embedding of the comparison `sqrtf a ≤ t` for `a ≥ 0`,
expressed on squares (exact for the real square root). -/
def sqrt_le (a t : ℚ) : Bool := decide (0 ≤ t ∧ a ≤ t * t)

/-- Embedding of the comparison `sqrtf a > t` for `a ≥ 0`,
expressed on squares (exact for the real square root). -/
def sqrt_gt (a t : ℚ) : Bool := decide (t < 0 ∨ t * t < a)

/-- The source's `SQRT3` float literal, at its written decimal value. -/
def SQRT3 : ℚ := 1.7320508075688772

/-- `pseudo_noise01` (hex_world.c lines 28-34): hash `q`,`r` with the odd
multipliers 73856093 and 19349663 in 32-bit wrapping arithmetic, XOR-combine,
avalanche-mix (shift/multiply/shift), and normalise the low 24 bits. -/
def pseudo_noise01 (q r : ℤ) : ℚ :=
  let h0 : ℕ := ((u32 q * 73856093) % 4294967296) ^^^ ((u32 r * 19349663) % 4294967296)
  let h1 : ℕ := h0 ^^^ (h0 >>> 13)
  let h2 : ℕ := (h1 * 0x5bd1e995) % 4294967296
  let h3 : ℕ := h2 ^^^ (h2 >>> 15)
  ((h3 &&& 0xFFFFFF : ℕ) : ℚ) / (16777216 : ℚ)

/-- Terrain kinds (`HexTerrain` in hex.h). -/
inductive HexTerrain where
  | Open
  | Forest
  | Mountain
  | Water
  | Hive
  | Flowers
  | Entrance
deriving DecidableEq, Repr

/-- `HEX_TILE_VISIBLE` flag bit. -/
def HEX_TILE_VISIBLE : ℕ := 1

/-- `HexTile` (hex.h). `q`,`r` are stored through an `int16_t` cast. -/
structure HexTile where
  q : ℤ
  r : ℤ
  terrain : HexTerrain
  nectar_stock : ℚ
  nectar_capacity : ℚ
  nectar_recharge_rate : ℚ
  flow_capacity : ℚ
  center_x : ℚ
  center_y : ℚ
  flags : ℕ
deriving DecidableEq, Repr

/-- `HexWorld` (hex.h). `width`/`height` are `uint16_t`, `count` is `size_t`. -/
structure HexWorld where
  cell_size : ℚ
  origin_x : ℚ
  origin_y : ℚ
  q_min : ℤ
  q_max : ℤ
  r_min : ℤ
  r_max : ℤ
  width : ℕ
  height : ℕ
  count : ℕ
  tiles : List HexTile
deriving DecidableEq, Repr

/-- The `hive` sub-struct of `Params` (params.h), hex-relevant fields. -/
structure HiveParams where
  rect_x : ℚ
  rect_y : ℚ
  rect_w : ℚ
  rect_h : ℚ
  entrance_side : ℤ
  entrance_t : ℚ
  entrance_width : ℚ
deriving DecidableEq, Repr

/-- The `hex` sub-struct of `Params` (params.h). -/
structure HexParams where
  enabled : Bool
  cell_size : ℚ
  origin_x : ℚ
  origin_y : ℚ
  q_min : ℤ
  q_max : ℤ
  r_min : ℤ
  r_max : ℤ
deriving DecidableEq, Repr

/-- `Params` restricted to the fields the hex subsystem reads. -/
structure Params where
  hive : HiveParams
  hex : HexParams
deriving DecidableEq, Repr

/-- `clampf` (hex_world.c lines 18-26). -/
def clampf (v lo hi : ℚ) : ℚ :=
  if v < lo then lo
  else if hi < v then hi
  else v

/-- Colony placement is active: `rect_w > 0 && rect_h > 0` (line 70). -/
def hive_enabled (p : Params) : Bool :=
  decide (0 < p.hive.rect_w ∧ 0 < p.hive.rect_h)

/-- Cell center inside the colony rectangle, inclusive (lines 73-74). -/
def tile_in_rect (p : Params) (tile : HexTile) : Bool :=
  decide (p.hive.rect_x ≤ tile.center_x ∧ tile.center_x ≤ p.hive.rect_x + p.hive.rect_w ∧
          p.hive.rect_y ≤ tile.center_y ∧ tile.center_y ≤ p.hive.rect_y + p.hive.rect_h)

/-- Entrance anchor point on the rectangle perimeter (lines 80-102). -/
def entrance_anchor (p : Params) : ℚ × ℚ :=
  let rect_x := p.hive.rect_x
  let rect_y := p.hive.rect_y
  let rect_w := p.hive.rect_w
  let rect_h := p.hive.rect_h
  if p.hive.entrance_side = 0 then
    (rect_x + clampf p.hive.entrance_t 0 1 * rect_w, rect_y)
  else if p.hive.entrance_side = 1 then
    (rect_x + clampf p.hive.entrance_t 0 1 * rect_w, rect_y + rect_h)
  else if p.hive.entrance_side = 2 then
    (rect_x, rect_y + clampf p.hive.entrance_t 0 1 * rect_h)
  else if p.hive.entrance_side = 3 then
    (rect_x + rect_w, rect_y + clampf p.hive.entrance_t 0 1 * rect_h)
  else
    (rect_x, rect_y)

/-- The entrance test (lines 104-116): axial proximity along the side's
tangent axis and radial proximity to the anchor. -/
def entrance_ok (p : Params) (world : HexWorld) (tile : HexTile) : Bool :=
  let a := entrance_anchor p
  let dx := tile.center_x - a.1
  let dy := tile.center_y - a.2
  let dist_sq := dx * dx + dy * dy
  let entrance_half := p.hive.entrance_width * 0.5
  let axial_extent :=
    if 0 < p.hive.entrance_width then p.hive.entrance_width * 0.5 else world.cell_size
  let radial_limit := max (world.cell_size * 1.2) entrance_half
  let axial_ok : Bool :=
    if p.hive.entrance_side = 0 ∨ p.hive.entrance_side = 1 then decide (|dx| ≤ axial_extent)
    else decide (|dy| ≤ axial_extent)
  axial_ok && sqrt_le dist_sq radial_limit

/-- Noise-driven tail of `assign_tile_defaults` (lines 123-157): the flower
patch test and the sparse terrain bands. -/
def assign_tile_noise (world : HexWorld) (tile : HexTile) : HexTile :=
  let local_x := tile.center_x - world.origin_x
  let local_y := tile.center_y - world.origin_y
  let dist_sq := local_x * local_x + local_y * local_y
  let noise := pseudo_noise01 tile.q tile.r
  if sqrt_gt dist_sq (world.cell_size * 8) && decide ((0.68 : ℚ) < noise) then
    let cap : ℚ := 240 + 60 * noise
    { tile with terrain := HexTerrain.Flowers,
                nectar_capacity := cap,
                nectar_stock := cap * clampf (0.55 + 0.4 * (noise - 0.68)) 0.35 0.95,
                nectar_recharge_rate := 4.5 + 2 * (noise - 0.68),
                flow_capacity := 18 }
  else if noise < 0.04 then
    { tile with terrain := HexTerrain.Water, flow_capacity := 2 }
  else if noise < 0.08 then
    { tile with terrain := HexTerrain.Mountain, flow_capacity := 1.5 }
  else if noise < 0.18 then
    { tile with terrain := HexTerrain.Forest, flow_capacity := 6,
                nectar_capacity := 30, nectar_stock := 30 * 0.3,
                nectar_recharge_rate := 0.8 }
  else tile

/-- `assign_tile_defaults` (lines 51-157): reset to Open defaults, then
colony interior, entrance gap, and the noise-driven rules in order. -/
def assign_tile_defaults (params : Option Params) (world : HexWorld) (tile0 : HexTile) : HexTile :=
  let tile := { tile0 with terrain := HexTerrain.Open,
                           nectar_capacity := 0,
                           nectar_stock := 0,
                           nectar_recharge_rate := 0,
                           flow_capacity := 8,
                           flags := HEX_TILE_VISIBLE }
  match params with
  | none => tile
  | some p =>
    if hive_enabled p then
      if tile_in_rect p tile then
        { tile with terrain := HexTerrain.Hive, flow_capacity := 35 }
      else if entrance_ok p world tile then
        { tile with terrain := HexTerrain.Entrance, flow_capacity := 26 }
      else assign_tile_noise world tile
    else assign_tile_noise world tile

/-- A zeroed `HexWorld`, as after `hex_world_init` / `memset 0`. -/
def hex_world_init : HexWorld :=
  { cell_size := 0, origin_x := 0, origin_y := 0,
    q_min := 0, q_max := 0, r_min := 0, r_max := 0,
    width := 0, height := 0, count := 0, tiles := [] }

/-- One iteration of the tile-filling loop of `hex_world_create`
(lines 203-210): the tile for row offset `ri` and column offset `qi`,
with its center computed via the axial affine transform. -/
def hex_world_make_tile (p : Params) (w : HexWorld)
    (q_min r_min : ℤ) (ri qi : ℕ) : HexTile :=
  let q : ℤ := q_min + (qi : ℤ)
  let r : ℤ := r_min + (ri : ℤ)
  let center_x := (SQRT3 * w.cell_size) * ((q : ℚ) + (r : ℚ) * 0.5)
  let center_y := (1.5 * w.cell_size) * (r : ℚ)
  assign_tile_defaults (some p) w
    { q := wrap16 q, r := wrap16 r, terrain := HexTerrain.Open,
      nectar_stock := 0, nectar_capacity := 0, nectar_recharge_rate := 0,
      flow_capacity := 0,
      center_x := w.origin_x + center_x,
      center_y := w.origin_y + center_y, flags := 0 }

/-- The tile-filling loop of `hex_world_create` (lines 200-212):
`r` outer, `q` inner. -/
def hex_world_build_tiles (p : Params) (w : HexWorld)
    (q_min q_span r_min r_span : ℤ) : List HexTile :=
  (List.range r_span.toNat).flatMap (fun (ri : ℕ) =>
    (List.range q_span.toNat).map (hex_world_make_tile p w q_min r_min ri))

/-- `hex_world_create` (lines 159-214) for a non-NULL `world` out-pointer.
Returns the C result `bool` and the final contents of `*world`. -/
def hex_world_create (params : Option Params) (allocOk : Bool) : Bool × HexWorld :=
  let w0 := hex_world_init
  match params with
  | none => (true, w0)
  | some p =>
    if p.hex.enabled = false then (true, w0)
    else
      let q_span := p.hex.q_max - p.hex.q_min + 1
      let r_span := p.hex.r_max - p.hex.r_min + 1
      if q_span ≤ 0 ∨ r_span ≤ 0 then (false, w0)
      else
        let w1 : HexWorld :=
          { cell_size := p.hex.cell_size,
            origin_x := p.hex.origin_x, origin_y := p.hex.origin_y,
            q_min := wrap16 p.hex.q_min, q_max := wrap16 p.hex.q_max,
            r_min := wrap16 p.hex.r_min, r_max := wrap16 p.hex.r_max,
            width := wrapU16 q_span, height := wrapU16 r_span,
            count := (q_span * r_span).toNat, tiles := [] }
        if (q_span * r_span).toNat = 0 then (true, w1)
        else if allocOk = false then (false, w1)
        else (true, { w1 with tiles := hex_world_build_tiles p w1 p.hex.q_min q_span p.hex.r_min r_span })

/-- `hex_world_create` including the NULL-`world` check (lines 160-162). -/
def hex_world_create_ptr (world : Option HexWorld) (params : Option Params)
    (allocOk : Bool) : Bool × Option HexWorld :=
  match world with
  | none => (false, none)
  | some _ =>
    let res := hex_world_create params allocOk
    (res.1, some res.2)

/-- `hex_world_in_bounds` (lines 216-221). -/
def hex_world_in_bounds (world : Option HexWorld) (q r : ℤ) : Bool :=
  match world with
  | none => false
  | some w =>
    if w.tiles = [] then false
    else decide (w.q_min ≤ q ∧ q ≤ w.q_max ∧ w.r_min ≤ r ∧ r ≤ w.r_max)

/-- `hex_world_index` (lines 223-230); `none` models `SIZE_MAX`. -/
def hex_world_index (world : Option HexWorld) (q r : ℤ) : Option ℕ :=
  match world with
  | none => none
  | some w =>
    if hex_world_in_bounds (some w) q r then
      some ((r - w.r_min).toNat * w.width + (q - w.q_min).toNat)
    else none

/-- `hex_world_tile` (lines 240-246); `none` models a NULL tile pointer. -/
def hex_world_tile (world : Option HexWorld) (q r : ℤ) : Option HexTile :=
  match world, hex_world_index world q r with
  | some w, some i => w.tiles[i]?
  | _, _ => none

/-- `hex_axial_to_world` (lines 248-262). -/
def hex_axial_to_world (world : Option HexWorld) (q r : ℤ) : ℚ × ℚ :=
  match world with
  | none => (0, 0)
  | some w =>
    if w.tiles = [] then (0, 0)
    else ((SQRT3 * w.cell_size) * ((q : ℚ) + (r : ℚ) * 0.5) + w.origin_x,
          (1.5 * w.cell_size) * (r : ℚ) + w.origin_y)

/-- `hex_world_to_axial_f` (lines 264-280). -/
def hex_world_to_axial_f (world : Option HexWorld) (world_x world_y : ℚ) : ℚ × ℚ :=
  match world with
  | none => (0, 0)
  | some w =>
    if w.cell_size ≤ 0 then (0, 0)
    else
      let x := world_x - w.origin_x
      let y := world_y - w.origin_y
      ((SQRT3 / 3 * x - 1/3 * y) / w.cell_size, (2/3 * y) / w.cell_size)

/-- `hex_axial_round` (lines 282-304): cube rounding with error correction. -/
def hex_axial_round (qf rf : ℚ) : ℤ × ℤ :=
  let sf := -qf - rf
  let q := lrintQ qf
  let r := lrintQ rf
  let s := lrintQ sf
  let q_diff := |(q : ℚ) - qf|
  let r_diff := |(r : ℚ) - rf|
  let s_diff := |(s : ℚ) - sf|
  if q_diff > r_diff ∧ q_diff > s_diff then (-r - s, r)
  else if r_diff > s_diff then (q, -q - s)
  else (q, r)

/-- `hex_world_pick` (lines 306-334). -/
def hex_world_pick (world : Option HexWorld) (world_x world_y : ℚ) :
    Option (ℤ × ℤ × ℕ) :=
  match world with
  | none => none
  | some w =>
    if w.tiles = [] then none
    else
      let f := hex_world_to_axial_f (some w) world_x world_y
      let qr := hex_axial_round f.1 f.2
      if hex_world_in_bounds (some w) qr.1 qr.2 then
        match hex_world_index (some w) qr.1 qr.2 with
        | none => none
        | some i => some (qr.1, qr.2, i)
      else none

end Bee

namespace Bee

/-! ### Shared helper lemmas -/

lemma land_mask24 (x : ℕ) : x &&& 16777215 = x % 16777216 := by
  have h := Nat.and_pow_two_sub_one_eq_mod x 24
  norm_num at h
  exact h

lemma pseudo_noise01_nonneg (q r : ℤ) : 0 ≤ pseudo_noise01 q r := by
  unfold pseudo_noise01
  positivity

lemma pseudo_noise01_lt_one (q r : ℤ) : pseudo_noise01 q r < 1 := by
  unfold pseudo_noise01
  rw [div_lt_one (by norm_num)]
  have h : ∀ n : ℕ, n &&& 16777215 < 16777216 := by
    intro n
    have := Nat.and_le_right (n := n) (m := 16777215)
    omega
  exact_mod_cast Nat.lt_of_lt_of_le (h _) le_rfl

lemma clampf_le (v lo hi : ℚ) (h : lo ≤ hi) : clampf v lo hi ≤ hi := by
  unfold clampf
  split
  · exact h
  · split
    · exact le_rfl
    · linarith [not_lt.mp (by assumption : ¬ hi < v)]

lemma le_clampf (v lo hi : ℚ) (h : lo ≤ hi) : lo ≤ clampf v lo hi := by
  unfold clampf
  split
  · exact le_rfl
  · split
    · exact h
    · linarith [not_lt.mp (by assumption : ¬ v < lo)]

lemma clampf_eq_self (v lo hi : ℚ) (h1 : lo ≤ v) (h2 : v ≤ hi) : clampf v lo hi = v := by
  unfold clampf
  rw [if_neg (not_lt.mpr h1), if_neg (not_lt.mpr h2)]

lemma wrap16_eq_self (z : ℤ) (h1 : -32768 ≤ z) (h2 : z ≤ 32767) : wrap16 z = z := by
  unfold wrap16
  omega

lemma wrapU16_eq_toNat (z : ℤ) (h1 : 0 ≤ z) (h2 : z ≤ 65535) : (wrapU16 z : ℤ) = z := by
  unfold wrapU16
  omega

lemma lrintQ_eq_of_abs_lt (x : ℚ) (n : ℤ) (h : |x - (n : ℚ)| < 1/2) : lrintQ x = n := by
  unfold lrintQ
  rcases abs_lt.mp h with ⟨h1, h2⟩
  rcases le_or_lt (n : ℚ) x with hge | hlt
  · have hf : ⌊x⌋ = n := by
      apply Int.floor_eq_iff.mpr
      constructor
      · exact hge
      · linarith
    rw [hf, if_pos (by linarith)]
  · have hf : ⌊x⌋ = n - 1 := by
      apply Int.floor_eq_iff.mpr
      constructor
      · push_cast
        linarith
      · push_cast
        linarith
    rw [hf]
    rw [if_neg (by push_cast; linarith), if_pos (by push_cast; linarith)]
    omega

lemma lrintQ_intCast (n : ℤ) : lrintQ ((n : ℚ)) = n := by
  apply lrintQ_eq_of_abs_lt
  simp

lemma grid_length {α : Type} (Q R : ℕ) (g : ℕ → ℕ → α) :
    ((List.range R).flatMap (fun ri => (List.range Q).map (g ri))).length = R * Q := by
  induction R with
  | zero => simp
  | succ n ih =>
    rw [List.range_succ, List.flatMap_append]
    simp only [List.length_append, ih]
    simp [Nat.succ_mul]

lemma grid_getElem {α : Type} (Q R ri qi : ℕ) (g : ℕ → ℕ → α)
    (hr : ri < R) (hq : qi < Q) :
    ((List.range R).flatMap (fun ri => (List.range Q).map (g ri)))[ri * Q + qi]? =
      some (g ri qi) := by
  induction R with
  | zero => omega
  | succ n ih =>
    rw [List.range_succ, List.flatMap_append]
    rcases lt_or_ge ri n with h | h
    · have hlen : ri * Q + qi < ((List.range n).flatMap fun ri => List.map (g ri) (List.range Q)).length := by
        rw [grid_length]
        calc ri * Q + qi < ri * Q + Q := by omega
        _ = (ri + 1) * Q := by ring
        _ ≤ n * Q := Nat.mul_le_mul_right Q h
      rw [List.getElem?_append, if_pos hlen]
      exact ih h
    · have hrn : ri = n := by omega
      subst hrn
      rw [List.getElem?_append, if_neg (by rw [grid_length]; omega)]
      rw [grid_length]
      simp only [List.flatMap_singleton]
      have he : ri * Q + qi - ri * Q = qi := by omega
      rw [he, List.getElem?_map, List.getElem?_range hq]
      rfl

/-- `assign_tile_defaults` never changes `q`, `r`, `center_x`, `center_y`. -/
lemma assign_tile_defaults_preserves (params : Option Params) (w : HexWorld) (t : HexTile) :
    (assign_tile_defaults params w t).q = t.q ∧
    (assign_tile_defaults params w t).r = t.r ∧
    (assign_tile_defaults params w t).center_x = t.center_x ∧
    (assign_tile_defaults params w t).center_y = t.center_y := by
  unfold assign_tile_defaults assign_tile_noise
  rcases params with _ | p
  · exact ⟨rfl, rfl, rfl, rfl⟩
  · simp only
    split
    · split
      · exact ⟨rfl, rfl, rfl, rfl⟩
      · split
        · exact ⟨rfl, rfl, rfl, rfl⟩
        · split
          · exact ⟨rfl, rfl, rfl, rfl⟩
          · split
            · exact ⟨rfl, rfl, rfl, rfl⟩
            · split
              · exact ⟨rfl, rfl, rfl, rfl⟩
              · split
                · exact ⟨rfl, rfl, rfl, rfl⟩
                · exact ⟨rfl, rfl, rfl, rfl⟩
    · split
      · exact ⟨rfl, rfl, rfl, rfl⟩
      · split
        · exact ⟨rfl, rfl, rfl, rfl⟩
        · split
          · exact ⟨rfl, rfl, rfl, rfl⟩
          · split
            · exact ⟨rfl, rfl, rfl, rfl⟩
            · exact ⟨rfl, rfl, rfl, rfl⟩

/-- On the successful build path, the world produced by `hex_world_create`. -/
lemma hex_world_create_enabled_eq (p : Params)
    (hen : p.hex.enabled = true)
    (hqs : 0 < p.hex.q_max - p.hex.q_min + 1)
    (hrs : 0 < p.hex.r_max - p.hex.r_min + 1) :
    hex_world_create (some p) true =
      (true,
       { cell_size := p.hex.cell_size,
         origin_x := p.hex.origin_x, origin_y := p.hex.origin_y,
         q_min := wrap16 p.hex.q_min, q_max := wrap16 p.hex.q_max,
         r_min := wrap16 p.hex.r_min, r_max := wrap16 p.hex.r_max,
         width := wrapU16 (p.hex.q_max - p.hex.q_min + 1),
         height := wrapU16 (p.hex.r_max - p.hex.r_min + 1),
         count := ((p.hex.q_max - p.hex.q_min + 1) * (p.hex.r_max - p.hex.r_min + 1)).toNat,
         tiles := hex_world_build_tiles p
           { cell_size := p.hex.cell_size,
             origin_x := p.hex.origin_x, origin_y := p.hex.origin_y,
             q_min := wrap16 p.hex.q_min, q_max := wrap16 p.hex.q_max,
             r_min := wrap16 p.hex.r_min, r_max := wrap16 p.hex.r_max,
             width := wrapU16 (p.hex.q_max - p.hex.q_min + 1),
             height := wrapU16 (p.hex.r_max - p.hex.r_min + 1),
             count := ((p.hex.q_max - p.hex.q_min + 1) * (p.hex.r_max - p.hex.r_min + 1)).toNat,
             tiles := [] }
           p.hex.q_min (p.hex.q_max - p.hex.q_min + 1)
           p.hex.r_min (p.hex.r_max - p.hex.r_min + 1) }) := by
  have hcount : ((p.hex.q_max - p.hex.q_min + 1) * (p.hex.r_max - p.hex.r_min + 1)).toNat ≠ 0 := by
    have := Int.mul_pos hqs hrs
    omega
  unfold hex_world_create
  simp only [hen, Bool.true_eq_false, if_false, if_neg (by omega : ¬ (p.hex.q_max - p.hex.q_min + 1 ≤ 0 ∨ p.hex.r_max - p.hex.r_min + 1 ≤ 0)), if_neg hcount]

lemma hex_world_create_not_enabled (p : Params) (a : Bool) (h : p.hex.enabled = false) :
    hex_world_create (some p) a = (true, hex_world_init) := by
  unfold hex_world_create
  simp [h]

lemma hex_world_create_bad_span (p : Params) (a : Bool) (hen : p.hex.enabled = true)
    (h : p.hex.q_max - p.hex.q_min + 1 ≤ 0 ∨ p.hex.r_max - p.hex.r_min + 1 ≤ 0) :
    hex_world_create (some p) a = (false, hex_world_init) := by
  unfold hex_world_create
  simp [hen, h]

lemma hex_world_create_alloc_fail (p : Params) (hen : p.hex.enabled = true)
    (hqs : 0 < p.hex.q_max - p.hex.q_min + 1)
    (hrs : 0 < p.hex.r_max - p.hex.r_min + 1) :
    hex_world_create (some p) false =
      (false,
       { cell_size := p.hex.cell_size,
         origin_x := p.hex.origin_x, origin_y := p.hex.origin_y,
         q_min := wrap16 p.hex.q_min, q_max := wrap16 p.hex.q_max,
         r_min := wrap16 p.hex.r_min, r_max := wrap16 p.hex.r_max,
         width := wrapU16 (p.hex.q_max - p.hex.q_min + 1),
         height := wrapU16 (p.hex.r_max - p.hex.r_min + 1),
         count := ((p.hex.q_max - p.hex.q_min + 1) * (p.hex.r_max - p.hex.r_min + 1)).toNat,
         tiles := [] }) := by
  have hcount : ((p.hex.q_max - p.hex.q_min + 1) * (p.hex.r_max - p.hex.r_min + 1)).toNat ≠ 0 := by
    have := Int.mul_pos hqs hrs
    omega
  unfold hex_world_create
  simp only [hen, Bool.true_eq_false, if_false,
    if_neg (by omega : ¬ (p.hex.q_max - p.hex.q_min + 1 ≤ 0 ∨ p.hex.r_max - p.hex.r_min + 1 ≤ 0)),
    if_neg hcount]
  rfl

/-- A world coming out of `hex_world_create` has tiles only when the
configuration was enabled, both spans were positive, and allocation
succeeded. -/
lemma hex_world_create_tiles_ne_nil (p : Params) (a : Bool)
    (h : ((hex_world_create (some p) a).2).tiles ≠ []) :
    p.hex.enabled = true ∧ 0 < p.hex.q_max - p.hex.q_min + 1 ∧
      0 < p.hex.r_max - p.hex.r_min + 1 ∧ a = true := by
  by_cases hen : p.hex.enabled = true
  · by_cases hqs : 0 < p.hex.q_max - p.hex.q_min + 1
    · by_cases hrs : 0 < p.hex.r_max - p.hex.r_min + 1
      · rcases a with _ | _
        · rw [hex_world_create_alloc_fail p hen hqs hrs] at h
          simp at h
        · exact ⟨hen, hqs, hrs, rfl⟩
      · rw [hex_world_create_bad_span p a hen (Or.inr (by omega))] at h
        simp [hex_world_init] at h
    · rw [hex_world_create_bad_span p a hen (Or.inl (by omega))] at h
      simp [hex_world_init] at h
  · rw [hex_world_create_not_enabled p a (by simpa using hen)] at h
    simp [hex_world_init] at h

lemma wrap16_bounds (z : ℤ) : -32768 ≤ wrap16 z ∧ wrap16 z ≤ 32767 := by
  unfold wrap16
  omega

/-- If `qf` is within 1/2 of the integer `q` and `rf` is exactly the integer
`r`, cube rounding returns `(q, r)`. -/
lemma hex_axial_round_near (qf rf : ℚ) (q r : ℤ)
    (hq : |qf - (q : ℚ)| < 1/2) (hr : rf = (r : ℚ)) :
    hex_axial_round qf rf = (q, r) := by
  have e1 : lrintQ qf = q := lrintQ_eq_of_abs_lt qf q hq
  have e2 : lrintQ rf = r := by rw [hr]; exact lrintQ_intCast r
  have e3 : lrintQ (-qf - rf) = -q - r := by
    apply lrintQ_eq_of_abs_lt
    rw [hr]
    push_cast
    rw [show -qf - (r:ℚ) - (-(q:ℚ) - (r:ℚ)) = -(qf - (q:ℚ)) by ring, abs_neg]
    exact hq
  simp only [hex_axial_round]
  rw [e1, e2, e3, hr]
  have hs : |((-q - r : ℤ) : ℚ) - (-qf - (r:ℚ))| = |qf - (q:ℚ)| := by
    push_cast
    rw [show -(q:ℚ) - (r:ℚ) - (-qf - (r:ℚ)) = qf - (q:ℚ) by ring]
  have h1 : ¬(|(q:ℚ) - qf| > |(r:ℚ) - (r:ℚ)| ∧
      |(q:ℚ) - qf| > |((-q - r : ℤ) : ℚ) - (-qf - (r:ℚ))|) := by
    rw [hs, abs_sub_comm (q:ℚ) qf]
    intro hcon
    exact lt_irrefl _ hcon.2
  have h2 : ¬(|(r:ℚ) - (r:ℚ)| > |((-q - r : ℤ) : ℚ) - (-qf - (r:ℚ))|) := by
    rw [hs]
    simp [abs_nonneg]
  rw [if_neg h1, if_neg h2]

/-- Core of the round-trip identity: over any lattice with tiles, positive
cell size and 16-bit coordinates, world-to-axial of axial-to-world cube-rounds
back to the original cell. -/
lemma round_trip_core (w : HexWorld) (q r : ℤ)
    (hcs : 0 < w.cell_size) (ht : w.tiles ≠ [])
    (hq1 : -32768 ≤ q) (hq2 : q ≤ 32767) (hr1 : -32768 ≤ r) (hr2 : r ≤ 32767) :
    hex_axial_round
      (hex_world_to_axial_f (some w) (hex_axial_to_world (some w) q r).1
        (hex_axial_to_world (some w) q r).2).1
      (hex_world_to_axial_f (some w) (hex_axial_to_world (some w) q r).1
        (hex_axial_to_world (some w) q r).2).2 = (q, r) := by
  have hcs' : w.cell_size ≠ 0 := ne_of_gt hcs
  have hxy : hex_axial_to_world (some w) q r =
      ((SQRT3 * w.cell_size) * ((q : ℚ) + (r : ℚ) * 0.5) + w.origin_x,
       (1.5 * w.cell_size) * (r : ℚ) + w.origin_y) := by
    simp [hex_axial_to_world, ht]
  have hnle : ¬ w.cell_size ≤ 0 := not_le.mpr hcs
  have hf1 : (hex_world_to_axial_f (some w) (hex_axial_to_world (some w) q r).1
      (hex_axial_to_world (some w) q r).2).1 =
      (q : ℚ) + (SQRT3 * SQRT3 / 3 - 1) * ((q : ℚ) + (r : ℚ) / 2) := by
    rw [hxy]
    simp only [hex_world_to_axial_f, hnle, if_false]
    field_simp
    ring
  have hf2 : (hex_world_to_axial_f (some w) (hex_axial_to_world (some w) q r).1
      (hex_axial_to_world (some w) q r).2).2 = (r : ℚ) := by
    rw [hxy]
    simp only [hex_world_to_axial_f, hnle, if_false]
    field_simp
    ring
  rw [hf1, hf2]
  apply hex_axial_round_near _ _ q r _ rfl
  rw [show (q:ℚ) + (SQRT3 * SQRT3 / 3 - 1) * ((q : ℚ) + (r : ℚ) / 2) - (q:ℚ) =
      (SQRT3 * SQRT3 / 3 - 1) * ((q : ℚ) + (r : ℚ) / 2) by ring]
  rw [abs_mul]
  have hq2' : (q : ℚ) ≤ 32767 := by exact_mod_cast hq2
  have hr2' : (r : ℚ) ≤ 32767 := by exact_mod_cast hr2
  have hq1' : (-32768 : ℚ) ≤ (q : ℚ) := by exact_mod_cast hq1
  have hr1' : (-32768 : ℚ) ≤ (r : ℚ) := by exact_mod_cast hr1
  have hqa : |(q : ℚ)| ≤ 32768 := by
    rw [abs_le]
    constructor <;> linarith
  have hra : |(r : ℚ)| ≤ 32768 := by
    rw [abs_le]
    constructor <;> linarith
  have hsum : |(q : ℚ) + (r : ℚ) / 2| ≤ 49152 := by
    calc |(q : ℚ) + (r : ℚ) / 2| ≤ |(q : ℚ)| + |(r : ℚ) / 2| := abs_add _ _
    _ = |(q : ℚ)| + |(r : ℚ)| / 2 := by rw [abs_div]; norm_num
    _ ≤ 32768 + 32768 / 2 := by linarith
    _ = 49152 := by norm_num
  have heps : |SQRT3 * SQRT3 / 3 - 1| ≤ 1/1000000000000000 := by
    rw [SQRT3]
    rw [abs_le]
    norm_num
  calc |SQRT3 * SQRT3 / 3 - 1| * |(q : ℚ) + (r : ℚ) / 2| ≤
      (1/1000000000000000) * 49152 := by
        apply mul_le_mul heps hsum (abs_nonneg _) (by norm_num)
  _ < 1/2 := by norm_num

lemma in_bounds_elim (w : HexWorld) (q r : ℤ)
    (h : hex_world_in_bounds (some w) q r = true) :
    w.tiles ≠ [] ∧ w.q_min ≤ q ∧ q ≤ w.q_max ∧ w.r_min ≤ r ∧ r ≤ w.r_max := by
  by_cases ht : w.tiles = []
  · simp [hex_world_in_bounds, ht] at h
  · simp only [hex_world_in_bounds, if_neg ht] at h
    exact ⟨ht, of_decide_eq_true h⟩

/-- Claim C1 (round-trip identity): for every integer cell `(q, r)` inside the
bounding box of a lattice built by `hex_world_create` (with positive cell
size, per the configuration contract), composing `hex_axial_to_world`,
`hex_world_to_axial_f` and `hex_axial_round` returns exactly `(q, r)`. -/
theorem round_trip_identity (p : Params) (a : Bool) (q r : ℤ)
    (hcs : 0 < p.hex.cell_size)
    (hin : hex_world_in_bounds (some (hex_world_create (some p) a).2) q r = true) :
    hex_axial_round
      (hex_world_to_axial_f (some (hex_world_create (some p) a).2)
        (hex_axial_to_world (some (hex_world_create (some p) a).2) q r).1
        (hex_axial_to_world (some (hex_world_create (some p) a).2) q r).2).1
      (hex_world_to_axial_f (some (hex_world_create (some p) a).2)
        (hex_axial_to_world (some (hex_world_create (some p) a).2) q r).1
        (hex_axial_to_world (some (hex_world_create (some p) a).2) q r).2).2 = (q, r) := by
  obtain ⟨ht, hq1, hq2, hr1, hr2⟩ := in_bounds_elim _ q r hin
  obtain ⟨hen, hqs, hrs, ha⟩ := hex_world_create_tiles_ne_nil p a ht
  subst ha
  have hw := hex_world_create_enabled_eq p hen hqs hrs
  have hqmin : (hex_world_create (some p) true).2.q_min = wrap16 p.hex.q_min := by rw [hw]
  have hqmax : (hex_world_create (some p) true).2.q_max = wrap16 p.hex.q_max := by rw [hw]
  have hrmin : (hex_world_create (some p) true).2.r_min = wrap16 p.hex.r_min := by rw [hw]
  have hrmax : (hex_world_create (some p) true).2.r_max = wrap16 p.hex.r_max := by rw [hw]
  have hcell : (hex_world_create (some p) true).2.cell_size = p.hex.cell_size := by rw [hw]
  apply round_trip_core _ q r (by rw [hcell]; exact hcs) ht
  · have := (wrap16_bounds p.hex.q_min).1
    rw [hqmin] at hq1
    omega
  · have := (wrap16_bounds p.hex.q_max).2
    rw [hqmax] at hq2
    omega
  · have := (wrap16_bounds p.hex.r_min).1
    rw [hrmin] at hr1
    omega
  · have := (wrap16_bounds p.hex.r_max).2
    rw [hrmax] at hr2
    omega

/-- The example configuration of spec section 8: `cell_size = 48`, origin
`(0,0)`, bounding box `q, r` in `[-2, 2]`, colony placement disabled. -/
def exampleParams : Params :=
  { hive := { rect_x := 0, rect_y := 0, rect_w := 0, rect_h := 0,
              entrance_side := 0, entrance_t := 0, entrance_width := 0 },
    hex := { enabled := true, cell_size := 48, origin_x := 0, origin_y := 0,
             q_min := -2, q_max := 2, r_min := -2, r_max := 2 } }

/-- The lattice built from `exampleParams`. -/
def exampleWorld : HexWorld := (hex_world_create (some exampleParams) true).2

lemma exampleWorld_def : exampleWorld =
    { cell_size := 48, origin_x := 0, origin_y := 0,
      q_min := -2, q_max := 2, r_min := -2, r_max := 2,
      width := 5, height := 5, count := 25,
      tiles := hex_world_build_tiles exampleParams
        { cell_size := 48, origin_x := 0, origin_y := 0,
          q_min := -2, q_max := 2, r_min := -2, r_max := 2,
          width := 5, height := 5, count := 25, tiles := [] } (-2) 5 (-2) 5 } := by
  rw [exampleWorld, hex_world_create_enabled_eq exampleParams rfl
    (by norm_num [exampleParams]) (by norm_num [exampleParams])]
  norm_num [wrap16, wrapU16, exampleParams]
  exact ⟨rfl, rfl, rfl⟩

lemma exampleWorld_tiles_length : exampleWorld.tiles.length = 25 := by
  rw [exampleWorld_def]
  simp only [hex_world_build_tiles]
  rw [show ((5 : ℤ)).toNat = 5 from rfl, grid_length]

lemma exampleWorld_tiles_ne_nil : exampleWorld.tiles ≠ [] := by
  intro h
  have hlen := congrArg List.length h
  rw [exampleWorld_tiles_length] at hlen
  simp at hlen

lemma exampleWorld_in_bounds_iff (q r : ℤ) :
    hex_world_in_bounds (some exampleWorld) q r =
      decide (-2 ≤ q ∧ q ≤ 2 ∧ -2 ≤ r ∧ r ≤ 2) := by
  simp only [hex_world_in_bounds, if_neg exampleWorld_tiles_ne_nil]
  rw [show exampleWorld.q_min = -2 by rw [exampleWorld_def],
      show exampleWorld.q_max = 2 by rw [exampleWorld_def],
      show exampleWorld.r_min = -2 by rw [exampleWorld_def],
      show exampleWorld.r_max = 2 by rw [exampleWorld_def]]

/-- Witness for C1 at the concrete cell `(1, -1)` of the example lattice. -/
theorem round_trip_identity_witness :
    hex_axial_round
      (hex_world_to_axial_f (some (hex_world_create (some exampleParams) true).2)
        (hex_axial_to_world (some (hex_world_create (some exampleParams) true).2) 1 (-1)).1
        (hex_axial_to_world (some (hex_world_create (some exampleParams) true).2) 1 (-1)).2).1
      (hex_world_to_axial_f (some (hex_world_create (some exampleParams) true).2)
        (hex_axial_to_world (some (hex_world_create (some exampleParams) true).2) 1 (-1)).1
        (hex_axial_to_world (some (hex_world_create (some exampleParams) true).2) 1 (-1)).2).2 =
      (1, -1) := by
  apply round_trip_identity exampleParams true 1 (-1)
  · norm_num [exampleParams]
  · show hex_world_in_bounds (some exampleWorld) 1 (-1) = true
    rw [exampleWorld_in_bounds_iff]
    decide

/-- Claim C5 (noise field contract): `pseudo_noise01` is a pure function of
the integers `q` and `r` computed in 32-bit wrapping arithmetic (so it only
depends on `q`, `r` modulo `2^32`), and its value always lies in `[0, 1)`.
Determinism (equal arguments give equal values) is definitional in this
functional embedding. -/
theorem noise_field_contract (q r : ℤ) :
    0 ≤ pseudo_noise01 q r ∧ pseudo_noise01 q r < 1 ∧
    pseudo_noise01 (q + 4294967296) r = pseudo_noise01 q r ∧
    pseudo_noise01 q (r + 4294967296) = pseudo_noise01 q r := by
  refine ⟨pseudo_noise01_nonneg q r, pseudo_noise01_lt_one q r, ?_, ?_⟩
  · unfold pseudo_noise01 u32
    rw [show (q + 4294967296) % 4294967296 = q % 4294967296 by omega]
  · unfold pseudo_noise01 u32
    rw [show (r + 4294967296) % 4294967296 = r % 4294967296 by omega]

/-- A plain tile record used to instantiate witnesses. -/
def witnessTile : HexTile :=
  { q := 0, r := 0, terrain := HexTerrain.Open,
    nectar_stock := 0, nectar_capacity := 0, nectar_recharge_rate := 0,
    flow_capacity := 0, center_x := 0, center_y := 0, flags := 0 }

/-- The resource invariant holds for the noise-driven tail when the incoming
tile has zeroed resource fields (as the reset in `assign_tile_defaults`
guarantees). -/
lemma resource_invariant_noise (w : HexWorld) (t : HexTile)
    (h0 : t.nectar_stock = 0) (h1 : t.nectar_capacity = 0)
    (h2 : t.nectar_recharge_rate = 0) :
    0 ≤ (assign_tile_noise w t).nectar_stock ∧
    (assign_tile_noise w t).nectar_stock ≤ (assign_tile_noise w t).nectar_capacity ∧
    ((assign_tile_noise w t).nectar_capacity = 0 →
      (assign_tile_noise w t).nectar_stock = 0 ∧
      (assign_tile_noise w t).nectar_recharge_rate = 0) := by
  have hn0 : 0 ≤ pseudo_noise01 t.q t.r := pseudo_noise01_nonneg _ _
  have hn1 : pseudo_noise01 t.q t.r < 1 := pseudo_noise01_lt_one _ _
  have hcl := le_clampf (0.55 + 0.4 * (pseudo_noise01 t.q t.r - 0.68)) 0.35 0.95 (by norm_num)
  have hch := clampf_le (0.55 + 0.4 * (pseudo_noise01 t.q t.r - 0.68)) 0.35 0.95 (by norm_num)
  simp only [assign_tile_noise]
  split
  · refine ⟨?_, ?_, ?_⟩
    · simp only
      nlinarith
    · simp only
      nlinarith
    · simp only
      intro hc
      exfalso
      nlinarith
  · split
    · exact ⟨by simp [h0], by simp [h0, h1], fun _ => ⟨by simp [h0], by simp [h2]⟩⟩
    · split
      · exact ⟨by simp [h0], by simp [h0, h1], fun _ => ⟨by simp [h0], by simp [h2]⟩⟩
      · split
        · refine ⟨by norm_num, by norm_num, ?_⟩
          simp only
          intro hc
          norm_num at hc
        · exact ⟨by simp [h0], by simp [h0, h1], fun _ => ⟨by simp [h0], by simp [h2]⟩⟩

/-- Claim C4 (resource invariant): every cell produced by terrain assignment
satisfies `0 ≤ stock ≤ capacity`, and zero capacity forces zero stock and
zero recharge rate, in every classification branch. -/
theorem resource_invariant (params : Option Params) (w : HexWorld) (t : HexTile) :
    0 ≤ (assign_tile_defaults params w t).nectar_stock ∧
    (assign_tile_defaults params w t).nectar_stock ≤
      (assign_tile_defaults params w t).nectar_capacity ∧
    ((assign_tile_defaults params w t).nectar_capacity = 0 →
      (assign_tile_defaults params w t).nectar_stock = 0 ∧
      (assign_tile_defaults params w t).nectar_recharge_rate = 0) := by
  rcases params with _ | p
  · exact ⟨le_rfl, le_rfl, fun _ => ⟨rfl, rfl⟩⟩
  · simp only [assign_tile_defaults]
    split
    · split
      · exact ⟨le_rfl, le_rfl, fun _ => ⟨rfl, rfl⟩⟩
      · split
        · exact ⟨le_rfl, le_rfl, fun _ => ⟨rfl, rfl⟩⟩
        · exact resource_invariant_noise w _ rfl rfl rfl
    · exact resource_invariant_noise w _ rfl rfl rfl

/-- Witness for C4 at a concrete configuration, world and tile. -/
theorem resource_invariant_witness :
    0 ≤ (assign_tile_defaults none hex_world_init witnessTile).nectar_stock ∧
    (assign_tile_defaults none hex_world_init witnessTile).nectar_stock ≤
      (assign_tile_defaults none hex_world_init witnessTile).nectar_capacity ∧
    ((assign_tile_defaults none hex_world_init witnessTile).nectar_capacity = 0 →
      (assign_tile_defaults none hex_world_init witnessTile).nectar_stock = 0 ∧
      (assign_tile_defaults none hex_world_init witnessTile).nectar_recharge_rate = 0) :=
  resource_invariant none hex_world_init witnessTile

lemma tile_in_rect_reset (p : Params) (t : HexTile) :
    tile_in_rect p
      { t with terrain := HexTerrain.Open, nectar_capacity := 0, nectar_stock := 0,
               nectar_recharge_rate := 0, flow_capacity := 8, flags := HEX_TILE_VISIBLE } =
      tile_in_rect p t := rfl

lemma entrance_ok_reset (p : Params) (w : HexWorld) (t : HexTile) :
    entrance_ok p w
      { t with terrain := HexTerrain.Open, nectar_capacity := 0, nectar_stock := 0,
               nectar_recharge_rate := 0, flow_capacity := 8, flags := HEX_TILE_VISIBLE } =
      entrance_ok p w t := rfl

/-- Claim C3 (colony precedence): with colony placement active, a cell whose
center lies in the colony rectangle is always classified Hive, and a cell
outside the rectangle that passes both entrance tests is always classified
Entrance, regardless of its noise value. -/
theorem colony_precedence (p : Params) (w : HexWorld) (t : HexTile) :
    (hive_enabled p = true → tile_in_rect p t = true →
      (assign_tile_defaults (some p) w t).terrain = HexTerrain.Hive) ∧
    (hive_enabled p = true → tile_in_rect p t = false → entrance_ok p w t = true →
      (assign_tile_defaults (some p) w t).terrain = HexTerrain.Entrance) := by
  constructor
  · intro h1 h2
    simp [assign_tile_defaults, tile_in_rect_reset, entrance_ok_reset, h1, h2]
  · intro h1 h2 h3
    simp [assign_tile_defaults, tile_in_rect_reset, entrance_ok_reset, h1, h2, h3]

/-- The example colony configuration of spec section 8: rectangle
`(0,0,100,100)`, entrance on the bottom side at `t = 0.5`, width 20. -/
def colonyParams : Params :=
  { hive := { rect_x := 0, rect_y := 0, rect_w := 100, rect_h := 100,
              entrance_side := 1, entrance_t := 0.5, entrance_width := 20 },
    hex := { enabled := true, cell_size := 48, origin_x := 0, origin_y := 0,
             q_min := -2, q_max := 2, r_min := -2, r_max := 2 } }

/-- A tile centered at `(50, 50)`, inside the colony rectangle. -/
def colonyHiveTile : HexTile := { witnessTile with center_x := 50, center_y := 50 }

/-- A tile centered at `(50, 110)`, outside the rectangle but passing both
entrance tests for the bottom-side entrance anchored at `(50, 100)`. -/
def colonyEntranceTile : HexTile := { witnessTile with center_x := 50, center_y := 110 }

/-- Witness for C3 at the example colony configuration. -/
theorem colony_precedence_witness :
    hive_enabled colonyParams = true ∧
    tile_in_rect colonyParams colonyHiveTile = true ∧
    (assign_tile_defaults (some colonyParams) hex_world_init colonyHiveTile).terrain =
      HexTerrain.Hive ∧
    tile_in_rect colonyParams colonyEntranceTile = false ∧
    entrance_ok colonyParams hex_world_init colonyEntranceTile = true ∧
    (assign_tile_defaults (some colonyParams) hex_world_init colonyEntranceTile).terrain =
      HexTerrain.Entrance := by
  have h1 : hive_enabled colonyParams = true := by
    simp [hive_enabled, colonyParams]
  have h2 : tile_in_rect colonyParams colonyHiveTile = true := by
    simp [tile_in_rect, colonyParams, colonyHiveTile, witnessTile]
    norm_num
  have h4 : tile_in_rect colonyParams colonyEntranceTile = false := by
    simp [tile_in_rect, colonyParams, colonyEntranceTile, witnessTile]
    norm_num
  have h5 : entrance_ok colonyParams hex_world_init colonyEntranceTile = true := by
    simp [entrance_ok, entrance_anchor, clampf, sqrt_le, colonyParams,
      colonyEntranceTile, witnessTile, hex_world_init]
    norm_num
  exact ⟨h1, h2, (colony_precedence colonyParams hex_world_init colonyHiveTile).1 h1 h2,
    h4, h5, (colony_precedence colonyParams hex_world_init colonyEntranceTile).2 h1 h4 h5⟩

/-- Claim C10 (implicit): `hex_axial_to_world` returns `(0, 0)` whenever the
world pointer is NULL or the lattice holds no tile array, regardless of cell
size and origin; the affine transform is applied only when tiles exist. -/
theorem axial_to_world_guard (w : HexWorld) (q r : ℤ) :
    hex_axial_to_world none q r = (0, 0) ∧
    (w.tiles = [] → hex_axial_to_world (some w) q r = (0, 0)) ∧
    (w.tiles ≠ [] → hex_axial_to_world (some w) q r =
      ((SQRT3 * w.cell_size) * ((q : ℚ) + (r : ℚ) * 0.5) + w.origin_x,
       (1.5 * w.cell_size) * (r : ℚ) + w.origin_y)) := by
  refine ⟨rfl, fun h => ?_, fun h => ?_⟩
  · simp [hex_axial_to_world, h]
  · simp [hex_axial_to_world, h]

/-- Witness for C10 at the empty world and at the example lattice. -/
theorem axial_to_world_guard_witness :
    hex_axial_to_world none 3 4 = (0, 0) ∧
    (hex_world_init.tiles = [] → hex_axial_to_world (some hex_world_init) 3 4 = (0, 0)) ∧
    (hex_world_init.tiles ≠ [] → hex_axial_to_world (some hex_world_init) 3 4 =
      ((SQRT3 * hex_world_init.cell_size) * ((3 : ℚ) + (4 : ℚ) * 0.5) + hex_world_init.origin_x,
       (1.5 * hex_world_init.cell_size) * (4 : ℚ) + hex_world_init.origin_y)) :=
  axial_to_world_guard hex_world_init 3 4

/-- Counterexample to C6 as stated: at `(qf, rf) = (2/5, 2/5)` the `q`
rounding error (2/5) ties the largest error (`r`'s is also 2/5, `s`'s is
1/5), yet the code corrects `r`, returning `(0, 1)`; recomputing `q` from the
other two would instead give `(1, 0)`. -/
theorem tie_break_counterexample :
    hex_axial_round (2/5) (2/5) = (0, 1) ∧ hex_axial_round (2/5) (2/5) ≠ (1, 0) := by
  constructor
  · simp only [hex_axial_round, lrintQ]
    norm_num [abs]
  · simp only [hex_axial_round, lrintQ]
    norm_num [abs]

/-- Amended C6: `q` is recomputed from the other two coordinates only when its
rounding error strictly exceeds both others. Whenever the `q` error ties
another error, `q` keeps its rounded value; if `r`'s error then strictly
exceeds `s`'s, `r` is the corrected coordinate, and otherwise neither
returned coordinate is corrected. -/
theorem tie_break_order (qf rf : ℚ) :
    ((|((lrintQ qf : ℤ) : ℚ) - qf| = |((lrintQ rf : ℤ) : ℚ) - rf| ∨
      |((lrintQ qf : ℤ) : ℚ) - qf| = |((lrintQ (-qf - rf) : ℤ) : ℚ) - (-qf - rf)|) →
      (hex_axial_round qf rf).1 = lrintQ qf) ∧
    (|((lrintQ qf : ℤ) : ℚ) - qf| = |((lrintQ rf : ℤ) : ℚ) - rf| →
      |((lrintQ (-qf - rf) : ℤ) : ℚ) - (-qf - rf)| < |((lrintQ rf : ℤ) : ℚ) - rf| →
      hex_axial_round qf rf = (lrintQ qf, -lrintQ qf - lrintQ (-qf - rf))) ∧
    (|((lrintQ qf : ℤ) : ℚ) - qf| = |((lrintQ (-qf - rf) : ℤ) : ℚ) - (-qf - rf)| →
      |((lrintQ rf : ℤ) : ℚ) - rf| ≤ |((lrintQ (-qf - rf) : ℤ) : ℚ) - (-qf - rf)| →
      hex_axial_round qf rf = (lrintQ qf, lrintQ rf)) := by
  refine ⟨?_, ?_, ?_⟩
  · intro h
    simp only [hex_axial_round]
    split_ifs with h1 h2
    · rcases h with h | h
      · exact absurd h1.1 (by rw [h]; exact lt_irrefl _)
      · exact absurd h1.2 (by rw [h]; exact lt_irrefl _)
    · rfl
    · rfl
  · intro h hs
    simp only [hex_axial_round]
    split_ifs with h1
    · exact absurd h1.1 (by rw [h]; exact lt_irrefl _)
    · rfl
  · intro h hr
    simp only [hex_axial_round]
    split_ifs with h1 h2
    · exact absurd h1.2 (by rw [h]; exact lt_irrefl _)
    · exact absurd h2 (not_lt.mpr (h ▸ hr))
    · rfl

lemma tie_break_hyp2 :
    |((lrintQ (-(2/5 : ℚ) - 2/5) : ℤ) : ℚ) - (-(2/5 : ℚ) - 2/5)| <
      |((lrintQ ((2/5 : ℚ)) : ℤ) : ℚ) - (2/5 : ℚ)| := by
  norm_num [lrintQ, abs]

/-- Witness for the amended C6 at the tie `(2/5, 2/5)`. -/
theorem tie_break_order_witness :
    hex_axial_round (2/5) (2/5) = (lrintQ (2/5), -lrintQ (2/5) - lrintQ (-(2/5 : ℚ) - 2/5)) :=
  (tie_break_order (2/5) (2/5)).2.1 rfl tie_break_hyp2

/-- Claim C8 (flowers resource scaling): any cell classified Flowers was so
classified because its distance from the lattice origin exceeds 8 cell radii
and its noise exceeds 0.68; its capacity is `240 + 60*noise` (so between 240
and 300), its stock is capacity times `0.55 + 0.4*(noise - 0.68)` (between
55% and 95% of capacity), and its recharge rate is `4.5 + 2*(noise - 0.68)`
(between 4.5 and 6.5). -/
theorem flowers_scaling (p : Params) (w : HexWorld) (t : HexTile)
    (hf : (assign_tile_defaults (some p) w t).terrain = HexTerrain.Flowers) :
    sqrt_gt ((t.center_x - w.origin_x) * (t.center_x - w.origin_x) +
      (t.center_y - w.origin_y) * (t.center_y - w.origin_y)) (w.cell_size * 8) = true ∧
    0.68 < pseudo_noise01 t.q t.r ∧
    (assign_tile_defaults (some p) w t).nectar_capacity =
      240 + 60 * pseudo_noise01 t.q t.r ∧
    240 < (assign_tile_defaults (some p) w t).nectar_capacity ∧
    (assign_tile_defaults (some p) w t).nectar_capacity < 300 ∧
    (assign_tile_defaults (some p) w t).nectar_stock =
      (assign_tile_defaults (some p) w t).nectar_capacity *
        (0.55 + 0.4 * (pseudo_noise01 t.q t.r - 0.68)) ∧
    0.55 * (assign_tile_defaults (some p) w t).nectar_capacity ≤
      (assign_tile_defaults (some p) w t).nectar_stock ∧
    (assign_tile_defaults (some p) w t).nectar_stock ≤
      0.95 * (assign_tile_defaults (some p) w t).nectar_capacity ∧
    (assign_tile_defaults (some p) w t).nectar_recharge_rate =
      4.5 + 2 * (pseudo_noise01 t.q t.r - 0.68) ∧
    4.5 < (assign_tile_defaults (some p) w t).nectar_recharge_rate ∧
    (assign_tile_defaults (some p) w t).nectar_recharge_rate < 6.5 := by
  have hn1 : pseudo_noise01 t.q t.r < 1 := pseudo_noise01_lt_one _ _
  revert hf
  simp only [assign_tile_defaults, assign_tile_noise]
  split
  · split
    · intro hf
      exact absurd hf (by simp)
    · split
      · intro hf
        exact absurd hf (by simp)
      · split
        · rename_i hcond
          intro hf
          rw [Bool.and_eq_true] at hcond
          have hgt : (0.68 : ℚ) < pseudo_noise01 t.q t.r := of_decide_eq_true hcond.2
          have hclamp : clampf (0.55 + 0.4 * (pseudo_noise01 t.q t.r - 0.68)) 0.35 0.95 =
              0.55 + 0.4 * (pseudo_noise01 t.q t.r - 0.68) :=
            clampf_eq_self _ _ _ (by linarith) (by linarith)
          refine ⟨hcond.1, hgt, rfl, by simp only; linarith, by simp only; linarith,
            by simp only [hclamp], ?_, ?_, rfl, by simp only; linarith, by simp only; linarith⟩
          · simp only [hclamp]
            nlinarith
          · simp only [hclamp]
            nlinarith
        · split
          · intro hf
            exact absurd hf (by simp)
          · split
            · intro hf
              exact absurd hf (by simp)
            · split
              · intro hf
                exact absurd hf (by simp)
              · intro hf
                exact absurd hf (by simp)
  · split
    · rename_i hcond
      intro hf
      rw [Bool.and_eq_true] at hcond
      have hgt : (0.68 : ℚ) < pseudo_noise01 t.q t.r := of_decide_eq_true hcond.2
      have hclamp : clampf (0.55 + 0.4 * (pseudo_noise01 t.q t.r - 0.68)) 0.35 0.95 =
          0.55 + 0.4 * (pseudo_noise01 t.q t.r - 0.68) :=
        clampf_eq_self _ _ _ (by linarith) (by linarith)
      refine ⟨hcond.1, hgt, rfl, by simp only; linarith, by simp only; linarith,
        by simp only [hclamp], ?_, ?_, rfl, by simp only; linarith, by simp only; linarith⟩
      · simp only [hclamp]
        nlinarith
      · simp only [hclamp]
        nlinarith
    · split
      · intro hf
        exact absurd hf (by simp)
      · split
        · intro hf
          exact absurd hf (by simp)
        · split
          · intro hf
            exact absurd hf (by simp)
          · intro hf
            exact absurd hf (by simp)

/-- A tile at axial `(2, 0)` (noise about 0.727) centered one world unit from
the origin: classified Flowers when colony placement is disabled. -/
def flowersTile : HexTile := { witnessTile with q := 2, center_x := 1 }

lemma noise_two_zero : pseudo_noise01 2 0 = 6097351 / 8388608 := by
  simp only [pseudo_noise01, u32, show ((2:ℤ) % 4294967296).toNat = 2 from rfl,
    show ((0:ℤ) % 4294967296).toNat = 0 from rfl, land_mask24]
  simp
  norm_num

lemma flowersTile_is_flowers :
    (assign_tile_defaults (some exampleParams) hex_world_init flowersTile).terrain =
      HexTerrain.Flowers := by
  simp only [assign_tile_defaults, assign_tile_noise, hive_enabled, exampleParams,
    flowersTile, witnessTile, hex_world_init, sqrt_gt]
  norm_num [noise_two_zero]

/-- Witness for C8 at the concrete Flowers cell `(2, 0)`. -/
theorem flowers_scaling_witness :
    (assign_tile_defaults (some exampleParams) hex_world_init flowersTile).nectar_capacity =
      240 + 60 * pseudo_noise01 flowersTile.q flowersTile.r :=
  (flowers_scaling exampleParams hex_world_init flowersTile flowersTile_is_flowers).2.2.1

lemma wrapU16_eq (z : ℤ) (h1 : 0 ≤ z) (h2 : z ≤ 65535) : wrapU16 z = z.toNat := by
  unfold wrapU16
  omega

/-- Base-`S` positional uniqueness used for the index bijection. -/
lemma grid_index_inj (S a1 b1 a2 b2 : ℤ) (hS : 0 < S)
    (hb1 : 0 ≤ b1) (hb1s : b1 < S) (hb2 : 0 ≤ b2) (hb2s : b2 < S)
    (h : a1 * S + b1 = a2 * S + b2) : a1 = a2 ∧ b1 = b2 := by
  have ha : a1 = a2 := by
    by_contra hne
    rcases lt_or_gt_of_ne hne with hlt | hgt
    · have h1 : a1 + 1 ≤ a2 := hlt
      nlinarith
    · have h1 : a2 + 1 ≤ a1 := hgt
      nlinarith
  subst ha
  exact ⟨rfl, by linarith⟩

/-- Core of the index bijection: for a world whose tile array is the row-major
grid of a function `g` over the bounding box, indexing follows the affine
formula, is injective, tiles carry matching coordinates, and out-of-bounds
queries are absent. -/
lemma index_bijection_core (w : HexWorld) (qmin qmax rmin rmax : ℤ)
    (g : ℕ → ℕ → HexTile)
    (hqmin : w.q_min = qmin) (hqmax : w.q_max = qmax)
    (hrmin : w.r_min = rmin) (hrmax : w.r_max = rmax)
    (hwidth : (w.width : ℤ) = qmax - qmin + 1)
    (hle1 : qmin ≤ qmax) (hle2 : rmin ≤ rmax)
    (htiles : w.tiles = (List.range (rmax - rmin + 1).toNat).flatMap
        (fun ri => (List.range (qmax - qmin + 1).toNat).map (g ri)))
    (hgq : ∀ ri qi : ℕ, ri < (rmax - rmin + 1).toNat → qi < (qmax - qmin + 1).toNat →
      (g ri qi).q = qmin + (qi : ℤ) ∧ (g ri qi).r = rmin + (ri : ℤ))
    (q r q' r' : ℤ) :
    (hex_world_in_bounds (some w) q r = true →
      hex_world_index (some w) q r =
        some (((r - rmin) * (qmax - qmin + 1) + (q - qmin)).toNat) ∧
      Option.map (fun t => (t.q, t.r)) (hex_world_tile (some w) q r) = some (q, r)) ∧
    (hex_world_in_bounds (some w) q r = true →
      hex_world_in_bounds (some w) q' r' = true → (q, r) ≠ (q', r') →
      hex_world_index (some w) q r ≠ hex_world_index (some w) q' r') ∧
    (hex_world_in_bounds (some w) q r = false →
      hex_world_index (some w) q r = none ∧ hex_world_tile (some w) q r = none) := by
  have htne : w.tiles ≠ [] := by
    rw [htiles]
    intro hcon
    have hlen := congrArg List.length hcon
    rw [grid_length] at hlen
    simp only [List.length_nil] at hlen
    have h1 : 0 < (rmax - rmin + 1).toNat := by omega
    have h2 : 0 < (qmax - qmin + 1).toNat := by omega
    exact absurd hlen (by positivity)
  have hin : ∀ a b : ℤ, hex_world_in_bounds (some w) a b = true ↔
      (qmin ≤ a ∧ a ≤ qmax ∧ rmin ≤ b ∧ b ≤ rmax) := by
    intro a b
    simp only [hex_world_in_bounds, if_neg htne, hqmin, hqmax, hrmin, hrmax,
      decide_eq_true_eq]
  have hmulnn : ∀ a b : ℤ, 0 ≤ a → 0 ≤ b → 0 ≤ a * b := fun a b ha hb => mul_nonneg ha hb
  have hidx : ∀ a b : ℤ, hex_world_in_bounds (some w) a b = true →
      hex_world_index (some w) a b =
        some (((b - rmin) * (qmax - qmin + 1) + (a - qmin)).toNat) := by
    intro a b hb
    obtain ⟨h1, h2, h3, h4⟩ := (hin a b).mp hb
    simp only [hex_world_index, hb, if_true, hqmin, hrmin]
    apply congrArg some
    have hnn : 0 ≤ (b - rmin) * (qmax - qmin + 1) :=
      hmulnn _ _ (by omega) (by omega)
    have hXnn : 0 ≤ (b - rmin) * (qmax - qmin + 1) + (a - qmin) := by omega
    have hcast : (((b - rmin).toNat * w.width + (a - qmin).toNat : ℕ) : ℤ) =
        (b - rmin) * (qmax - qmin + 1) + (a - qmin) := by
      push_cast
      rw [Int.toNat_of_nonneg (show (0:ℤ) ≤ b - rmin by omega),
          Int.toNat_of_nonneg (show (0:ℤ) ≤ a - qmin by omega), hwidth]
    exact Nat.cast_inj.mp (hcast.trans (Int.toNat_of_nonneg hXnn).symm)
  refine ⟨?_, ?_, ?_⟩
  · intro hb
    obtain ⟨h1, h2, h3, h4⟩ := (hin q r).mp hb
    refine ⟨hidx q r hb, ?_⟩
    simp only [hex_world_tile, hidx q r hb]
    rw [htiles]
    have hnn : 0 ≤ (r - rmin) * (qmax - qmin + 1) :=
      hmulnn _ _ (by omega) (by omega)
    have hXnn : 0 ≤ (r - rmin) * (qmax - qmin + 1) + (q - qmin) := by omega
    have hN : ((r - rmin) * (qmax - qmin + 1) + (q - qmin)).toNat =
        (r - rmin).toNat * (qmax - qmin + 1).toNat + (q - qmin).toNat := by
      have hc1 : (((r - rmin).toNat * (qmax - qmin + 1).toNat + (q - qmin).toNat : ℕ) : ℤ) =
          (r - rmin) * (qmax - qmin + 1) + (q - qmin) := by
        push_cast
        rw [Int.toNat_of_nonneg (show (0:ℤ) ≤ r - rmin by omega),
            Int.toNat_of_nonneg (show (0:ℤ) ≤ qmax - qmin + 1 by omega),
            Int.toNat_of_nonneg (show (0:ℤ) ≤ q - qmin by omega)]
      exact Nat.cast_inj.mp ((Int.toNat_of_nonneg hXnn).trans hc1.symm)
    rw [hN, grid_getElem _ _ _ _ g (by omega) (by omega)]
    obtain ⟨hgq1, hgq2⟩ := hgq (r - rmin).toNat (q - qmin).toNat (by omega) (by omega)
    simp only [Option.map_some', hgq1, hgq2]
    have e1 : qmin + ((q - qmin).toNat : ℤ) = q := by omega
    have e2 : rmin + ((r - rmin).toNat : ℤ) = r := by omega
    rw [e1, e2]
  · intro hb hb' hne hcon
    obtain ⟨h1, h2, h3, h4⟩ := (hin q r).mp hb
    obtain ⟨h1', h2', h3', h4'⟩ := (hin q' r').mp hb'
    rw [hidx q r hb, hidx q' r' hb'] at hcon
    have hTN := Option.some.injEq _ _ ▸ hcon
    have heq : ((r - rmin) * (qmax - qmin + 1) + (q - qmin)).toNat =
        ((r' - rmin) * (qmax - qmin + 1) + (q' - qmin)).toNat := by
      exact Option.some_injective _ hcon
    have hnn : 0 ≤ (r - rmin) * (qmax - qmin + 1) := hmulnn _ _ (by omega) (by omega)
    have hnn' : 0 ≤ (r' - rmin) * (qmax - qmin + 1) := hmulnn _ _ (by omega) (by omega)
    have heqZ : (r - rmin) * (qmax - qmin + 1) + (q - qmin) =
        (r' - rmin) * (qmax - qmin + 1) + (q' - qmin) := by omega
    obtain ⟨ha, hbq⟩ := grid_index_inj (qmax - qmin + 1) (r - rmin) (q - qmin)
      (r' - rmin) (q' - qmin) (by omega) (by omega) (by omega) (by omega) (by omega) heqZ
    exact hne (by
      have : q = q' := by omega
      have : r = r' := by omega
      simp_all)
  · intro hb
    have hidxn : hex_world_index (some w) q r = none := by
      simp [hex_world_index, hb]
    refine ⟨hidxn, ?_⟩
    unfold hex_world_tile
    rw [hidxn]

/-- Claim C2 (index bijection and bounds contract): over a lattice built from
an in-range configuration (16-bit bounds, spans in `[1, 65535]`), every
in-bounds `(q, r)` gets index `(r - r_min) * width + (q - q_min)`, the tile
stored there carries matching `q`, `r` fields, distinct in-bounds cells get
distinct indices, and out-of-bounds queries yield the absent results. -/
theorem index_bijection_bounds (p : Params) (q r q' r' : ℤ)
    (hen : p.hex.enabled = true)
    (hq_lo : -32768 ≤ p.hex.q_min) (hq_hi : p.hex.q_max ≤ 32767)
    (hr_lo : -32768 ≤ p.hex.r_min) (hr_hi : p.hex.r_max ≤ 32767)
    (hq_le : p.hex.q_min ≤ p.hex.q_max) (hr_le : p.hex.r_min ≤ p.hex.r_max)
    (hq_span : p.hex.q_max - p.hex.q_min + 1 ≤ 65535)
    (hr_span : p.hex.r_max - p.hex.r_min + 1 ≤ 65535) :
    (hex_world_in_bounds (some (hex_world_create (some p) true).2) q r = true →
      hex_world_index (some (hex_world_create (some p) true).2) q r =
        some (((r - p.hex.r_min) * (p.hex.q_max - p.hex.q_min + 1) + (q - p.hex.q_min)).toNat) ∧
      Option.map (fun t => (t.q, t.r))
        (hex_world_tile (some (hex_world_create (some p) true).2) q r) = some (q, r)) ∧
    (hex_world_in_bounds (some (hex_world_create (some p) true).2) q r = true →
      hex_world_in_bounds (some (hex_world_create (some p) true).2) q' r' = true →
      (q, r) ≠ (q', r') →
      hex_world_index (some (hex_world_create (some p) true).2) q r ≠
        hex_world_index (some (hex_world_create (some p) true).2) q' r') ∧
    (hex_world_in_bounds (some (hex_world_create (some p) true).2) q r = false →
      hex_world_index (some (hex_world_create (some p) true).2) q r = none ∧
      hex_world_tile (some (hex_world_create (some p) true).2) q r = none) := by
  have hqs : (0:ℤ) < p.hex.q_max - p.hex.q_min + 1 := by omega
  have hrs : (0:ℤ) < p.hex.r_max - p.hex.r_min + 1 := by omega
  have hwc := hex_world_create_enabled_eq p hen hqs hrs
  have hqmin : (hex_world_create (some p) true).2.q_min = p.hex.q_min := by
    rw [hwc]
    exact wrap16_eq_self _ hq_lo (by omega)
  have hqmax : (hex_world_create (some p) true).2.q_max = p.hex.q_max := by
    rw [hwc]
    exact wrap16_eq_self _ (by omega) hq_hi
  have hrmin : (hex_world_create (some p) true).2.r_min = p.hex.r_min := by
    rw [hwc]
    exact wrap16_eq_self _ hr_lo (by omega)
  have hrmax : (hex_world_create (some p) true).2.r_max = p.hex.r_max := by
    rw [hwc]
    exact wrap16_eq_self _ (by omega) hr_hi
  have hwidth : (((hex_world_create (some p) true).2.width : ℕ) : ℤ) =
      p.hex.q_max - p.hex.q_min + 1 := by
    rw [hwc]
    exact wrapU16_eq_toNat _ (by omega) hq_span
  have htiles : (hex_world_create (some p) true).2.tiles =
      (List.range (p.hex.r_max - p.hex.r_min + 1).toNat).flatMap
        (fun ri => (List.range (p.hex.q_max - p.hex.q_min + 1).toNat).map
          (hex_world_make_tile p { (hex_world_create (some p) true).2 with tiles := [] }
            p.hex.q_min p.hex.r_min ri)) := by
    rw [hwc]
    rfl
  have hgq : ∀ ri qi : ℕ, ri < (p.hex.r_max - p.hex.r_min + 1).toNat →
      qi < (p.hex.q_max - p.hex.q_min + 1).toNat →
      (hex_world_make_tile p { (hex_world_create (some p) true).2 with tiles := [] }
          p.hex.q_min p.hex.r_min ri qi).q = p.hex.q_min + (qi : ℤ) ∧
      (hex_world_make_tile p { (hex_world_create (some p) true).2 with tiles := [] }
          p.hex.q_min p.hex.r_min ri qi).r = p.hex.r_min + (ri : ℤ) := by
    intro ri qi hri hqi
    have hqiz : (qi : ℤ) < p.hex.q_max - p.hex.q_min + 1 := by omega
    have hriz : (ri : ℤ) < p.hex.r_max - p.hex.r_min + 1 := by omega
    have hqnn : (0:ℤ) ≤ (qi : ℤ) := Int.natCast_nonneg qi
    have hrnn : (0:ℤ) ≤ (ri : ℤ) := Int.natCast_nonneg ri
    unfold hex_world_make_tile
    constructor
    · rw [(assign_tile_defaults_preserves _ _ _).1]
      exact wrap16_eq_self _ (by omega) (by omega)
    · rw [(assign_tile_defaults_preserves _ _ _).2.1]
      exact wrap16_eq_self _ (by omega) (by omega)
  exact index_bijection_core ((hex_world_create (some p) true).2)
    p.hex.q_min p.hex.q_max p.hex.r_min p.hex.r_max
    (hex_world_make_tile p { (hex_world_create (some p) true).2 with tiles := [] }
      p.hex.q_min p.hex.r_min)
    hqmin hqmax hrmin hrmax hwidth hq_le hr_le htiles hgq q r q' r'

/-- Witness for C2 at the example configuration, comparing cells `(0,0)`
and `(1,0)`. -/
theorem index_bijection_bounds_witness :
    (hex_world_in_bounds (some (hex_world_create (some exampleParams) true).2) 0 0 = true →
      hex_world_index (some (hex_world_create (some exampleParams) true).2) 0 0 =
        some ((((0:ℤ) - exampleParams.hex.r_min) *
          (exampleParams.hex.q_max - exampleParams.hex.q_min + 1) +
          ((0:ℤ) - exampleParams.hex.q_min)).toNat) ∧
      Option.map (fun t => (t.q, t.r))
        (hex_world_tile (some (hex_world_create (some exampleParams) true).2) 0 0) =
        some (0, 0)) ∧
    (hex_world_in_bounds (some (hex_world_create (some exampleParams) true).2) 0 0 = true →
      hex_world_in_bounds (some (hex_world_create (some exampleParams) true).2) 1 0 = true →
      ((0:ℤ), (0:ℤ)) ≠ ((1:ℤ), (0:ℤ)) →
      hex_world_index (some (hex_world_create (some exampleParams) true).2) 0 0 ≠
        hex_world_index (some (hex_world_create (some exampleParams) true).2) 1 0) ∧
    (hex_world_in_bounds (some (hex_world_create (some exampleParams) true).2) 0 0 = false →
      hex_world_index (some (hex_world_create (some exampleParams) true).2) 0 0 = none ∧
      hex_world_tile (some (hex_world_create (some exampleParams) true).2) 0 0 = none) :=
  index_bijection_bounds exampleParams 0 0 1 0 rfl (by decide) (by decide) (by decide)
    (by decide) (by decide) (by decide) (by decide) (by decide)

/-- Counterexample to C7 as stated: a NULL configuration reference makes
`hex_world_create` return `true` (success with an empty world), not a build
failure; and the allocation-failure path returns `false` with `count = 25`,
not an empty (`count = 0`) world. -/
theorem create_failure_counterexample :
    (hex_world_create_ptr (some hex_world_init) none true).1 = true ∧
    (hex_world_create (some exampleParams) false).1 = false ∧
    (hex_world_create (some exampleParams) false).2.count ≠ 0 := by
  refine ⟨rfl, ?_, ?_⟩
  · rw [hex_world_create_alloc_fail exampleParams rfl (by decide) (by decide)]
  · rw [hex_world_create_alloc_fail exampleParams rfl (by decide) (by decide)]
    decide

/-- Amended C7: build returns `false` iff the world out-pointer is NULL, or
the configuration is enabled and a span is non-positive, or allocation fails;
a NULL (or disabled) configuration returns `true` with a fully zeroed world;
every `false` return from a non-NULL world leaves no tiles; and on the
non-positive-span path the world is fully zeroed (`count = 0`). On the
allocation-failure path only the tile array is absent, `count` stays set. -/
theorem create_failure_contract (wptr : Option HexWorld) (p : Params) (a : Bool) :
    ((hex_world_create_ptr wptr (some p) a).1 = false ↔
      (wptr = none ∨ (p.hex.enabled = true ∧
        (p.hex.q_max - p.hex.q_min + 1 ≤ 0 ∨ p.hex.r_max - p.hex.r_min + 1 ≤ 0 ∨
          a = false)))) ∧
    (hex_world_create_ptr wptr none a =
      (wptr.isSome, wptr.map (fun _ => hex_world_init))) ∧
    ((hex_world_create (some p) a).1 = false →
      (hex_world_create (some p) a).2.tiles = []) ∧
    (p.hex.enabled = true →
      (p.hex.q_max - p.hex.q_min + 1 ≤ 0 ∨ p.hex.r_max - p.hex.r_min + 1 ≤ 0) →
      (hex_world_create (some p) a).2 = hex_world_init) := by
  have h1 : (hex_world_create (some p) a).1 = false ↔
      (p.hex.enabled = true ∧
        (p.hex.q_max - p.hex.q_min + 1 ≤ 0 ∨ p.hex.r_max - p.hex.r_min + 1 ≤ 0 ∨
          a = false)) := by
    by_cases hen : p.hex.enabled = true
    · by_cases hsp : p.hex.q_max - p.hex.q_min + 1 ≤ 0 ∨ p.hex.r_max - p.hex.r_min + 1 ≤ 0
      · rw [hex_world_create_bad_span p a hen hsp]
        simp only [hen, true_and]
        constructor
        · intro _
          tauto
        · intro _
          trivial
      · push_neg at hsp
        obtain ⟨hqs, hrs⟩ := hsp
        rcases a with _ | _
        · rw [hex_world_create_alloc_fail p hen (by omega) (by omega)]
          simp [hen]
        · rw [hex_world_create_enabled_eq p hen (by omega) (by omega)]
          simp [hen]
          omega
    · rw [hex_world_create_not_enabled p a (by simpa using hen)]
      simp [hen]
  have h3 : (hex_world_create (some p) a).1 = false →
      (hex_world_create (some p) a).2.tiles = [] := by
    intro hf
    obtain ⟨hen, hsp⟩ := h1.mp hf
    by_cases hb : p.hex.q_max - p.hex.q_min + 1 ≤ 0 ∨ p.hex.r_max - p.hex.r_min + 1 ≤ 0
    · rw [hex_world_create_bad_span p a hen hb]
      rfl
    · push_neg at hb
      obtain ⟨hqs, hrs⟩ := hb
      have ha : a = false := by
        rcases hsp with h | h | h
        · omega
        · omega
        · exact h
      subst ha
      rw [hex_world_create_alloc_fail p hen (by omega) (by omega)]
  have h4 : p.hex.enabled = true →
      (p.hex.q_max - p.hex.q_min + 1 ≤ 0 ∨ p.hex.r_max - p.hex.r_min + 1 ≤ 0) →
      (hex_world_create (some p) a).2 = hex_world_init := by
    intro hen hsp
    rw [hex_world_create_bad_span p a hen hsp]
  rcases wptr with _ | w0
  · refine ⟨?_, rfl, h3, h4⟩
    simp [hex_world_create_ptr]
  · refine ⟨?_, rfl, h3, h4⟩
    simpa [hex_world_create_ptr] using h1

/-- Witness for the amended C7 at a concrete world pointer and configuration. -/
theorem create_failure_contract_witness :
    ((hex_world_create_ptr (some hex_world_init) (some exampleParams) true).1 = false ↔
      ((some hex_world_init : Option HexWorld) = none ∨ (exampleParams.hex.enabled = true ∧
        (exampleParams.hex.q_max - exampleParams.hex.q_min + 1 ≤ 0 ∨
          exampleParams.hex.r_max - exampleParams.hex.r_min + 1 ≤ 0 ∨
          (true : Bool) = false)))) ∧
    (hex_world_create_ptr (some hex_world_init) none true =
      ((some hex_world_init : Option HexWorld).isSome,
       (some hex_world_init : Option HexWorld).map (fun _ => hex_world_init))) ∧
    ((hex_world_create (some exampleParams) true).1 = false →
      (hex_world_create (some exampleParams) true).2.tiles = []) ∧
    (exampleParams.hex.enabled = true →
      (exampleParams.hex.q_max - exampleParams.hex.q_min + 1 ≤ 0 ∨
        exampleParams.hex.r_max - exampleParams.hex.r_min + 1 ≤ 0) →
      (hex_world_create (some exampleParams) true).2 = hex_world_init) :=
  create_failure_contract (some hex_world_init) exampleParams true

lemma exampleWorld_cell_size : exampleWorld.cell_size = 48 := by rw [exampleWorld_def]

lemma exampleWorld_origin_x : exampleWorld.origin_x = 0 := by rw [exampleWorld_def]

lemma exampleWorld_origin_y : exampleWorld.origin_y = 0 := by rw [exampleWorld_def]

lemma exampleWorld_width : exampleWorld.width = 5 := by rw [exampleWorld_def]

lemma exampleWorld_q_min : exampleWorld.q_min = -2 := by rw [exampleWorld_def]

lemma exampleWorld_r_min : exampleWorld.r_min = -2 := by rw [exampleWorld_def]

lemma exampleWorld_to_axial_zero :
    hex_world_to_axial_f (some exampleWorld) 0 0 = (0, 0) := by
  simp [hex_world_to_axial_f, exampleWorld_cell_size, exampleWorld_origin_x,
    exampleWorld_origin_y]

lemma round_zero : hex_axial_round 0 0 = (0, 0) := by
  norm_num [hex_axial_round, lrintQ]

lemma exampleWorld_pick_zero :
    hex_world_pick (some exampleWorld) 0 0 = some (0, 0, 12) := by
  simp only [hex_world_pick, if_neg exampleWorld_tiles_ne_nil,
    exampleWorld_to_axial_zero, round_zero]
  rw [exampleWorld_in_bounds_iff]
  simp only [hex_world_index, exampleWorld_in_bounds_iff, exampleWorld_r_min,
    exampleWorld_q_min, exampleWorld_width]
  norm_num
  rfl

lemma exampleWorld_to_axial_far :
    hex_world_to_axial_f (some exampleWorld) 1000 1000 =
      ((SQRT3 / 3 * 1000 - 1/3 * 1000) / 48, (2/3 * 1000) / 48) := by
  simp [hex_world_to_axial_f, exampleWorld_cell_size, exampleWorld_origin_x,
    exampleWorld_origin_y]

lemma round_far :
    hex_axial_round ((SQRT3 / 3 * 1000 - 1/3 * 1000) / 48) ((2/3 * 1000) / 48) =
      (5, 14) := by
  norm_num [hex_axial_round, lrintQ, SQRT3, abs]

lemma exampleWorld_pick_far :
    hex_world_pick (some exampleWorld) 1000 1000 = none := by
  simp only [hex_world_pick, if_neg exampleWorld_tiles_ne_nil,
    exampleWorld_to_axial_far, round_far]
  rw [exampleWorld_in_bounds_iff]
  simp

/-- Claim C9 (pick contract): `hex_world_pick` matches iff the lattice is
non-empty and the cube-rounded cell of the query is in bounds (the bounds
check subsumes non-emptiness); on a match it returns exactly the rounded cell
and its index; concretely, on the example lattice `pick(0,0)` returns
`(0, 0)` (index 12) and `pick(1000,1000)` returns no match. -/
theorem pick_contract (w : HexWorld) (x y : ℚ) (q r : ℤ) (i : ℕ) :
    ((hex_world_pick (some w) x y).isSome = true ↔
      hex_world_in_bounds (some w)
        (hex_axial_round (hex_world_to_axial_f (some w) x y).1
          (hex_world_to_axial_f (some w) x y).2).1
        (hex_axial_round (hex_world_to_axial_f (some w) x y).1
          (hex_world_to_axial_f (some w) x y).2).2 = true) ∧
    (hex_world_pick (some w) x y = some (q, r, i) →
      (q, r) = hex_axial_round (hex_world_to_axial_f (some w) x y).1
        (hex_world_to_axial_f (some w) x y).2 ∧
      hex_world_index (some w) q r = some i) ∧
    hex_world_pick (some exampleWorld) 0 0 = some (0, 0, 12) ∧
    hex_world_pick (some exampleWorld) 1000 1000 = none := by
  refine ⟨?_, ?_, exampleWorld_pick_zero, exampleWorld_pick_far⟩
  · by_cases ht : w.tiles = []
    · simp [hex_world_pick, hex_world_in_bounds, ht]
    · simp only [hex_world_pick, if_neg ht]
      by_cases hb : hex_world_in_bounds (some w)
          (hex_axial_round (hex_world_to_axial_f (some w) x y).1
            (hex_world_to_axial_f (some w) x y).2).1
          (hex_axial_round (hex_world_to_axial_f (some w) x y).1
            (hex_world_to_axial_f (some w) x y).2).2 = true
      · simp [hb, hex_world_index]
      · rw [Bool.not_eq_true] at hb
        simp [hb]
  · intro h
    by_cases ht : w.tiles = []
    · simp [hex_world_pick, ht] at h
    · simp only [hex_world_pick, if_neg ht] at h
      by_cases hb : hex_world_in_bounds (some w)
          (hex_axial_round (hex_world_to_axial_f (some w) x y).1
            (hex_world_to_axial_f (some w) x y).2).1
          (hex_axial_round (hex_world_to_axial_f (some w) x y).1
            (hex_world_to_axial_f (some w) x y).2).2 = true
      · rw [if_pos hb] at h
        simp only [hex_world_index, hb, if_true, Option.some.injEq, Prod.mk.injEq] at h
        obtain ⟨hq, hr, hi⟩ := h
        refine ⟨?_, ?_⟩
        · rw [← hq, ← hr]
        · rw [← hq, ← hr, ← hi]
          simp only [hex_world_index, hb, if_true]
      · rw [Bool.not_eq_true] at hb
        simp [hb] at h

/-- Witness for C9 at the example lattice and the query `(0, 0)`. -/
theorem pick_contract_witness :
    ((hex_world_pick (some exampleWorld) 0 0).isSome = true ↔
      hex_world_in_bounds (some exampleWorld)
        (hex_axial_round (hex_world_to_axial_f (some exampleWorld) 0 0).1
          (hex_world_to_axial_f (some exampleWorld) 0 0).2).1
        (hex_axial_round (hex_world_to_axial_f (some exampleWorld) 0 0).1
          (hex_world_to_axial_f (some exampleWorld) 0 0).2).2 = true) ∧
    (hex_world_pick (some exampleWorld) 0 0 = some (0, 0, 12) →
      ((0:ℤ), (0:ℤ)) = hex_axial_round (hex_world_to_axial_f (some exampleWorld) 0 0).1
        (hex_world_to_axial_f (some exampleWorld) 0 0).2 ∧
      hex_world_index (some exampleWorld) 0 0 = some 12) ∧
    hex_world_pick (some exampleWorld) 0 0 = some (0, 0, 12) ∧
    hex_world_pick (some exampleWorld) 1000 1000 = none :=
  pick_contract exampleWorld 0 0 0 0 12

end Bee
